import Mathlib

/-!
# Verification of the smartphone recommender (`src/app.py`)

This file gives a shallow embedding of the scoring-and-ranking core of the
recommender script and proves properties of it.

Modelling conventions:

* Python/pandas floating-point numbers are idealised as exact rationals for
  their finite values (IEEE rounding is out of scope), but the special values
  `NaN` and the two infinities are modelled explicitly by the type `PyFloat`,
  because missing data in pandas is represented by `NaN` and the script's
  behaviour on degenerate inputs hinges on `NaN` arithmetic and comparisons
  (`0.0/0.0` is `NaN` under numpy, comparisons with `NaN` are `False`, and
  `Series.max` skips `NaN` and returns `NaN` for an all-missing column).
* A catalog row (one line of the loaded dataframe) is a `PhoneRecord`.  The
  `price`, `ram` and `battery` columns are float columns after `load_data`,
  so they are `PyFloat` with `nan` for a missing entry.  The `camera` column
  is an object column: `none` models both a missing column and a non-string
  entry, since the script guards with
  `"camera" in row and isinstance(row["camera"], str)`.
* The Python `score_phone` closes over the module-level dataframe `df` (the
  full loaded catalog) for the normalisation maxima, while `recommend`
  filters a local shadowing parameter; the app only ever calls `recommend`
  on a copy of that same full catalog.  The embedding therefore passes the
  full catalog to `score_phone`, which computes the maxima from it, and
  `recommend` scores the filtered candidates against the full catalog.
* `sort_values(by="score", ascending=False)` is modelled as a stable
  descending insertion sort with `NaN` placed last (pandas' default
  `na_position` is `"last"`).  pandas' default sorting kind is `quicksort`,
  which does not guarantee stability; no theorem below depends on the order
  among equal scores.
* Python's `float(str)` is modelled by `parseFloatChars`: optional
  surrounding whitespace, optional sign, digits with an optional decimal
  point (at least one digit overall), and an optional exponent.  The exotic
  literal forms `inf`/`infinity`/`nan` and digit-group underscores accepted
  by `float` are treated as unparseable here; no result below depends on
  them.
-/

namespace Recommender

set_option maxRecDepth 16000

/-- A Python/numpy float: `NaN`, a signed infinity (`inf true` is `+∞`), or a
finite value idealised as a rational. -/
inductive PyFloat where
  | nan : PyFloat
  | inf : Bool → PyFloat
  | val : ℚ → PyFloat
deriving DecidableEq, Repr

/-- IEEE addition on `PyFloat`: `NaN` propagates, opposite infinities give
`NaN`. -/
def PyFloat.add : PyFloat → PyFloat → PyFloat
  | nan, _ => nan
  | _, nan => nan
  | inf b, inf c => if b = c then inf b else nan
  | inf b, val _ => inf b
  | val _, inf c => inf c
  | val x, val y => val (x + y)

/-- IEEE multiplication on `PyFloat`: `NaN` propagates, `0 * ∞ = NaN`,
otherwise signs multiply.  (Rationals carry no signed zero; the finite zero
is treated as positive, which is the only case the script can reach.) -/
def PyFloat.mul : PyFloat → PyFloat → PyFloat
  | nan, _ => nan
  | _, nan => nan
  | inf b, inf c => inf (b == c)
  | inf b, val y => if y = 0 then nan else inf (b == decide (0 < y))
  | val x, inf c => if x = 0 then nan else inf (c == decide (0 < x))
  | val x, val y => val (x * y)

/-- numpy division on `PyFloat`: `NaN` propagates, `∞/∞ = NaN`, `0/0 = NaN`,
`x/0 = ±∞` for finite `x ≠ 0` (numpy raises no exception, it emits a
`RuntimeWarning` and yields the IEEE result), `x/∞ = 0`. -/
def PyFloat.div : PyFloat → PyFloat → PyFloat
  | nan, _ => nan
  | _, nan => nan
  | inf _, inf _ => nan
  | inf b, val y => if y = 0 then inf b else inf (b == decide (0 < y))
  | val _, inf _ => val 0
  | val x, val y => if y = 0 then (if x = 0 then nan else inf (decide (0 < x))) else val (x / y)

/-- IEEE `<=` on `PyFloat`: any comparison involving `NaN` is `False`. -/
def PyFloat.le : PyFloat → PyFloat → Bool
  | nan, _ => false
  | _, nan => false
  | inf b, inf c => !b || c
  | inf b, val _ => !b
  | val _, inf c => c
  | val x, val y => decide (x ≤ y)

/-- `pd.isna` on a float entry: true exactly for `NaN`. -/
def PyFloat.isNan : PyFloat → Bool
  | nan => true
  | _ => false

/-- `Series.max()` (line 62 / line 66 read `df["ram"].max()` and
`df["battery"].max()`): skip `NaN` entries, return `NaN` when nothing
remains. -/
def seriesMax (xs : List PyFloat) : PyFloat :=
  xs.foldl (fun acc x => if x.isNan then acc else if acc.isNan then x else if acc.le x then x else acc) .nan

/-- The user-selectable priority (line 45). -/
inductive Priority where
  | Performance
  | Camera
  | Battery
  | Display
  | Balanced
deriving DecidableEq, Repr

/-- One row of the loaded catalog, after the cleaning in `load_data`
(lines 10–22): `price`, `ram`, `battery` are float columns (`nan` =
missing), `camera` is an object column (`none` = missing column, `NaN`
entry, or any non-string entry). -/
structure PhoneRecord where
  brand : Option String
  model : String
  price : PyFloat
  ram : PyFloat
  battery : PyFloat
  camera : Option String
deriving DecidableEq, Repr

/-! ## Python string helpers used by the camera agent (lines 69–75) -/

/-- Python `str.split(sep)` for a one-character separator: `"a+b"` gives
`["a", "b"]`, the empty string gives `[""]`, so the result is never empty. -/
def splitOnChar (sep : Char) : List Char → List (List Char)
  | [] => [[]]
  | c :: rest =>
    let r := splitOnChar sep rest
    if c = sep then [] :: r
    else
      match r with
      | [] => [[c]]
      | g :: gs => (c :: g) :: gs

/-- `c.split('MP')[0]`: the text before the first occurrence of the
two-character substring `MP` (the whole string when `MP` does not occur). -/
def beforeMP : List Char → List Char
  | [] => []
  | 'M' :: 'P' :: _ => []
  | c :: rest => c :: beforeMP rest

/-- The whitespace characters stripped by Python `str.strip()` (restricted
to ASCII; the dataset is ASCII). -/
def isPySpace (c : Char) : Bool :=
  c = ' ' || c = '\t' || c = '\n' || c = '\r' || c = '\x0b' || c = '\x0c'

/-- Python `str.strip()` on a character list. -/
def stripChars (cs : List Char) : List Char :=
  ((cs.dropWhile isPySpace).reverse.dropWhile isPySpace).reverse

/-- Value of a string of decimal digits as a natural number. -/
def digitsToNat (ds : List Char) : ℕ :=
  ds.foldl (fun a c => a * 10 + (c.toNat - 48)) 0

/-- Value of a string of decimal digits as a rational. -/
def digitsToRat (ds : List Char) : ℚ :=
  ds.foldl (fun a c => a * 10 + ((c.toNat - 48 : ℕ) : ℚ)) 0

/-- The optional exponent tail of a Python float literal: either nothing, or
`e`/`E`, an optional sign, and at least one digit, ending the string. -/
def parseExponent (m : ℚ) (cs : List Char) : Option ℚ :=
  match cs with
  | [] => some m
  | c :: r =>
    if c = 'e' || c = 'E' then
      let sr : Bool × List Char :=
        match r with
        | '+' :: t => (false, t)
        | '-' :: t => (true, t)
        | t => (false, t)
      let ds := sr.2.takeWhile Char.isDigit
      let rest := sr.2.dropWhile Char.isDigit
      if ds.isEmpty || !rest.isEmpty then none
      else some (m * (10 : ℚ) ^ (if sr.1 then -(digitsToNat ds : ℤ) else (digitsToNat ds : ℤ)))
    else none

/-- Python `float(str)` restricted to finite decimal literals: optional
surrounding whitespace, optional sign, digits with an optional decimal point
(at least one digit overall), optional exponent.  `none` models the
`ValueError` raised on anything else (see the header note on `inf`/`nan`
literals). -/
def parseFloatChars (raw : List Char) : Option ℚ :=
  let cs := stripChars raw
  let sc : Bool × List Char :=
    match cs with
    | '+' :: t => (false, t)
    | '-' :: t => (true, t)
    | t => (false, t)
  let intPart := sc.2.takeWhile Char.isDigit
  let after := sc.2.dropWhile Char.isDigit
  let fc : List Char × List Char :=
    match after with
    | '.' :: t => (t.takeWhile Char.isDigit, t.dropWhile Char.isDigit)
    | t => ([], t)
  if intPart.isEmpty && fc.1.isEmpty then none
  else
    let mag := digitsToRat intPart + digitsToRat fc.1 / (10 : ℚ) ^ fc.1.length
    parseExponent (if sc.1 then -mag else mag) fc.2

/-- Evaluate `f` on every list element from the left, failing as a whole on
the first failure: the behaviour of the list comprehension
`[float(c.split('MP')[0].strip()) for c in row["camera"].split('+')]`
inside the `try` block — one `ValueError` aborts the whole list. -/
def parseAll {α β : Type} (f : α → Option β) : List α → Option (List β)
  | [] => some []
  | x :: xs =>
    match f x with
    | none => none
    | some v =>
      match parseAll f xs with
      | none => none
      | some vs => some (v :: vs)

/-- `float(c.split('MP')[0].strip())` for one `+`-separated camera segment. -/
def camSegParse (cs : List Char) : Option ℚ :=
  parseFloatChars (stripChars (beforeMP cs))

/-! ## The scorer (`score_phone`, lines 51–85) -/

/-- Budget agent (lines 55–58): the chained comparison
`budget_min <= row["price"] <= budget_max` is `False` whenever `price` is
`NaN`, so a missing price falls into the `-0.5` branch. -/
def budget_term (price : PyFloat) (bm bM : ℚ) : ℚ :=
  if PyFloat.le (.val bm) price && PyFloat.le price (.val bM) then 1 else -(1/2)

/-- Performance agent (lines 61–62): skipped when the row's `ram` is `NaN`
(here: contributes an exact `0` instead of being skipped, which is the same
thing since `x + 0 = x` for every `PyFloat`), otherwise
`(row["ram"] / df["ram"].max()) * 2`. -/
def ram_term (ram ramMax : PyFloat) : PyFloat :=
  if ram.isNan then .val 0 else (ram.div ramMax).mul (.val 2)

/-- Battery agent (lines 65–66): skipped when the row's `battery` is `NaN`,
otherwise `row["battery"] / df["battery"].max()`. -/
def battery_term (battery batteryMax : PyFloat) : PyFloat :=
  if battery.isNan then .val 0 else battery.div batteryMax

/-- Camera agent (lines 69–75): split on `+`, take the text before `MP`,
strip, parse with `float`; one parse failure raises inside the `try` and the
whole term is abandoned (`except: pass`, contributing `0`).  When all
segments parse, add `average / 100`.  Parse values are finite, so the
contribution is a rational. -/
def camera_term (camera : Option String) : ℚ :=
  match camera with
  | none => 0
  | some s =>
    match parseAll camSegParse (splitOnChar '+' s.data) with
    | none => 0
    | some vals => (vals.sum / (vals.length : ℚ)) / 100

/-- The per-segment parse results of a camera string, used to state when the
`try` block of lines 70–75 succeeds. -/
def segParses (s : String) : List (Option ℚ) :=
  (splitOnChar '+' s.data).map camSegParse

/-- Priority adjustment (lines 78–83): the `if`/`elif` chain multiplies by
`1.2`, `1.1` or `1.15`; `Display` and `Balanced` match no branch and leave
the score unchanged. -/
def priority_mult (p : Priority) (s : PyFloat) : PyFloat :=
  match p with
  | .Performance => s.mul (.val (6/5))
  | .Camera => s.mul (.val (11/10))
  | .Battery => s.mul (.val (23/20))
  | .Display => s
  | .Balanced => s

/-- The accumulated score of lines 52–75, before the priority adjustment:
start from `0`, add the four agents' contributions in order.  The
normalisation maxima are `df["ram"].max()` / `df["battery"].max()` where
`df` is the module-level full catalog. -/
def raw_score (catalog : List PhoneRecord) (row : PhoneRecord) (bm bM : ℚ) : PyFloat :=
  let s : PyFloat := .val 0
  let s := s.add (.val (budget_term row.price bm bM))
  let s := s.add (ram_term row.ram (seriesMax (catalog.map PhoneRecord.ram)))
  let s := s.add (battery_term row.battery (seriesMax (catalog.map PhoneRecord.battery)))
  s.add (.val (camera_term row.camera))

/-- `score_phone(row, priority, budget_min, budget_max)` (lines 51–85). -/
def score_phone (catalog : List PhoneRecord) (row : PhoneRecord)
    (priority : Priority) (bm bM : ℚ) : PyFloat :=
  priority_mult priority (raw_score catalog row bm bM)

/-! ## The ranker (`recommend`, lines 90–103) -/

/-- Lines 92–96: filter by price (a `NaN` price fails both comparisons and
is dropped), then by brand when the brand list is non-empty (`isin` is
`False` on a missing brand). -/
def candidates (catalog : List PhoneRecord) (bm bM : ℚ) (brand_pref : List String) :
    List PhoneRecord :=
  let byPrice := catalog.filter fun r =>
    PyFloat.le (.val bm) r.price && PyFloat.le r.price (.val bM)
  if brand_pref.isEmpty then byPrice
  else byPrice.filter fun r =>
    match r.brand with
    | some b => brand_pref.contains b
    | none => false

/-- Ranking comparison: `a` ranks strictly below `b` (so `a` comes later in
the descending output); `NaN` ranks below everything
(`na_position="last"`). -/
def rank_lt (a b : PyFloat) : Bool :=
  match a, b with
  | .nan, .nan => false
  | .nan, _ => true
  | _, .nan => false
  | a, b => PyFloat.le a b && !(PyFloat.le b a)

/-- Insert one scored row into a descending-sorted list, after every entry
that does not rank strictly below it (stable on ties). -/
def insert_desc (x : PhoneRecord × PyFloat) :
    List (PhoneRecord × PyFloat) → List (PhoneRecord × PyFloat)
  | [] => [x]
  | y :: ys => if rank_lt x.2 y.2 then y :: insert_desc x ys else x :: y :: ys

/-- `df.sort_values(by="score", ascending=False)` (line 102), modelled as a
stable descending sort (see the header note: pandas' default quicksort does
not guarantee stability, and nothing below depends on the order among equal
scores). -/
def sort_values_desc : List (PhoneRecord × PyFloat) → List (PhoneRecord × PyFloat)
  | [] => []
  | x :: xs => insert_desc x (sort_values_desc xs)

/-- `recommend(df, priority, price_range, brand_pref)` (lines 90–103):
filter, score every remaining row with `score_phone` (whose maxima come
from the full catalog — the app calls `recommend` on a copy of the same
module-level `df` that `score_phone` closes over), sort descending by
score, keep the first 3.  Each returned row carries its score
(line 99 / line 103). -/
def recommend (catalog : List PhoneRecord) (priority : Priority) (bm bM : ℚ)
    (brand_pref : List String) : List (PhoneRecord × PyFloat) :=
  (sort_values_desc ((candidates catalog bm bM brand_pref).map
    fun r => (r, score_phone catalog r priority bm bM))).take 3

/-! ## Helper lemmas about the sort and the ranker -/

theorem mem_insert_desc {x y : PhoneRecord × PyFloat} {l : List (PhoneRecord × PyFloat)}
    (h : y ∈ insert_desc x l) : y = x ∨ y ∈ l := by
  induction l with
  | nil => simpa [insert_desc] using h
  | cons a as ih =>
    simp only [insert_desc] at h
    by_cases hc : rank_lt x.2 a.2
    · rw [if_pos hc] at h
      rcases List.mem_cons.mp h with h1 | h2
      · exact Or.inr (h1 ▸ List.mem_cons_self a as)
      · rcases ih h2 with h3 | h4
        · exact Or.inl h3
        · exact Or.inr (List.mem_cons_of_mem a h4)
    · rw [if_neg hc] at h
      rcases List.mem_cons.mp h with h1 | h2
      · exact Or.inl h1
      · exact Or.inr h2

theorem mem_sort_values_desc {y : PhoneRecord × PyFloat} {l : List (PhoneRecord × PyFloat)}
    (h : y ∈ sort_values_desc l) : y ∈ l := by
  induction l with
  | nil => simp [sort_values_desc] at h
  | cons a as ih =>
    simp only [sort_values_desc] at h
    rcases mem_insert_desc h with h1 | h2
    · exact h1 ▸ List.mem_cons_self a as
    · exact List.mem_cons_of_mem a (ih h2)

theorem length_insert_desc (x : PhoneRecord × PyFloat) (l : List (PhoneRecord × PyFloat)) :
    (insert_desc x l).length = l.length + 1 := by
  induction l with
  | nil => rfl
  | cons a as ih =>
    simp only [insert_desc]
    by_cases hc : rank_lt x.2 a.2
    · rw [if_pos hc]
      simp [ih]
    · rw [if_neg hc]
      simp

theorem length_sort_values_desc (l : List (PhoneRecord × PyFloat)) :
    (sort_values_desc l).length = l.length := by
  induction l with
  | nil => rfl
  | cons a as ih => simp [sort_values_desc, length_insert_desc, ih]

/-- Any row of the ranker's output is a filtered candidate, and carries the
score computed by `score_phone` against the full catalog. -/
theorem mem_recommend {catalog : List PhoneRecord} {p : Priority} {bm bM : ℚ}
    {pref : List String} {r : PhoneRecord} {s : PyFloat}
    (h : (r, s) ∈ recommend catalog p bm bM pref) :
    r ∈ candidates catalog bm bM pref ∧ s = score_phone catalog r p bm bM := by
  have h1 : (r, s) ∈ sort_values_desc ((candidates catalog bm bM pref).map
      fun a => (a, score_phone catalog a p bm bM)) := List.take_subset 3 _ h
  have h2 := mem_sort_values_desc h1
  obtain ⟨a, ha, heq⟩ := List.mem_map.mp h2
  cases heq
  exact ⟨ha, rfl⟩

/-! ## Claim C1 -/

/-- C1: the normalisation maxima used by the scorer are computed over the
entire loaded catalog, not over the filtered candidate subset, even though
filtering happens before scoring.  Any score attached to a record by
`recommend` equals `score_phone` evaluated against the full catalog (whose
`raw_score` normalises by `seriesMax` over the whole catalog); in
particular the same record receives the same score in two runs that differ
in the brand filter, i.e. regardless of which filter produced the
candidate set. -/
theorem c1_maxima_full_catalog (catalog : List PhoneRecord) (p : Priority) (bm bM : ℚ)
    (pref1 pref2 : List String) (r : PhoneRecord) (s1 s2 : PyFloat)
    (h1 : (r, s1) ∈ recommend catalog p bm bM pref1)
    (h2 : (r, s2) ∈ recommend catalog p bm bM pref2) :
    s1 = score_phone catalog r p bm bM ∧ s2 = score_phone catalog r p bm bM ∧ s1 = s2 := by
  have e1 := (mem_recommend h1).2
  have e2 := (mem_recommend h2).2
  exact ⟨e1, e2, e1.trans e2.symm⟩

/-- A two-brand catalog used to instantiate C1. -/
def w1A : PhoneRecord := ⟨some "A", "A one", .val 15, .val 8, .val 5, some "50MP+8MP+2MP"⟩

/-- Second record of the C1 catalog. -/
def w1B : PhoneRecord := ⟨some "B", "B two", .val 25, .val 16, .val 6, some "64MP"⟩

/-- The C1 catalog. -/
def w1cat : List PhoneRecord := [w1A, w1B]

theorem c1_maxima_full_catalog_witness :
    (w1A, PyFloat.val (91/30)) ∈ recommend w1cat .Balanced 10 30 [] ∧
    (w1A, PyFloat.val (91/30)) ∈ recommend w1cat .Balanced 10 30 ["A"] ∧
    PyFloat.val (91/30) = score_phone w1cat w1A .Balanced 10 30 :=
  ⟨by with_unfolding_all decide, by with_unfolding_all decide,
   (c1_maxima_full_catalog w1cat .Balanced 10 30 [] ["A"] w1A (.val (91/30)) (.val (91/30))
      (by with_unfolding_all decide) (by with_unfolding_all decide)).1⟩

/-! ## Claim C7 -/

/-- C7: if the candidate set is empty after price and brand filtering,
`recommend` returns an empty ranking (and, being a total function, raises
no error). -/
theorem c7_empty_candidates (catalog : List PhoneRecord) (p : Priority) (bm bM : ℚ)
    (pref : List String) (h : candidates catalog bm bM pref = []) :
    recommend catalog p bm bM pref = [] := by
  simp [recommend, h, sort_values_desc]

/-- A catalog whose only record is priced outside the C7 budget. -/
def w7cat : List PhoneRecord := [⟨some "C", "C three", .val 40, .val 12, .nan, none⟩]

theorem c7_empty_candidates_witness :
    candidates w7cat 10 30 [] = [] ∧ recommend w7cat .Balanced 10 30 [] = [] :=
  ⟨by with_unfolding_all decide,
   c7_empty_candidates w7cat .Balanced 10 30 [] (by with_unfolding_all decide)⟩

/-! ## Claim C8 -/

/-- C8: `recommend` returns at most 3 records, and its length is exactly
the minimum of 3 and the number of filtered candidates — so it returns
fewer than 3 only when the candidate set itself has fewer than 3
records. -/
theorem c8_top3_length (catalog : List PhoneRecord) (p : Priority) (bm bM : ℚ)
    (pref : List String) :
    (recommend catalog p bm bM pref).length ≤ 3 ∧
    (recommend catalog p bm bM pref).length = min 3 (candidates catalog bm bM pref).length := by
  have e : (recommend catalog p bm bM pref).length
      = min 3 (candidates catalog bm bM pref).length := by
    simp [recommend, List.length_take, length_sort_values_desc]
  exact ⟨e ▸ Nat.min_le_left 3 _, e⟩

/-! ## Claim C10 -/

/-- A record that passes the price filter lands in the `+1.0` branch of the
budget agent, since the scorer re-checks the very same comparison. -/
theorem budget_term_eq_one_of_le {price : PyFloat} {bm bM : ℚ}
    (h : (PyFloat.le (.val bm) price && PyFloat.le price (.val bM)) = true) :
    budget_term price bm bM = 1 := by
  simp [budget_term, h]

/-- C10: every record returned by `recommend` passed the price filter, so
its price is present (not `NaN`) and lies inside `[bm, bM]`; consequently
the scorer's budget term for it is the `+1.0` branch, never `-0.5`, and a
record with a missing price can never appear in a recommendation. -/
theorem c10_inrange_price (catalog : List PhoneRecord) (p : Priority) (bm bM : ℚ)
    (pref : List String) (r : PhoneRecord) (s : PyFloat)
    (h : (r, s) ∈ recommend catalog p bm bM pref) :
    (∃ q, r.price = .val q ∧ bm ≤ q ∧ q ≤ bM) ∧
    budget_term r.price bm bM = 1 ∧
    r.price.isNan = false := by
  have hc := (mem_recommend h).1
  have hp : (PyFloat.le (.val bm) r.price && PyFloat.le r.price (.val bM)) = true := by
    simp only [candidates] at hc
    by_cases he : pref.isEmpty
    · rw [if_pos he] at hc
      exact (List.mem_filter.mp hc).2
    · rw [if_neg he] at hc
      exact (List.mem_filter.mp (List.mem_filter.mp hc).1).2
  have hb := budget_term_eq_one_of_le hp
  refine ⟨?_, hb, ?_⟩
  · cases hq : r.price with
    | nan => rw [hq] at hp; simp [PyFloat.le] at hp
    | inf b => rw [hq] at hp; cases b <;> simp [PyFloat.le] at hp
    | val q =>
      rw [hq] at hp
      rcases Bool.and_eq_true_iff.mp hp with ⟨hp1, hp2⟩
      exact ⟨q, rfl, of_decide_eq_true hp1, of_decide_eq_true hp2⟩
  · cases hq : r.price with
    | nan => rw [hq] at hp; simp [PyFloat.le] at hp
    | inf b => rfl
    | val q => rfl

theorem c10_inrange_price_witness :
    (w1A, PyFloat.val (91/30)) ∈ recommend w1cat .Balanced 10 30 [] ∧
    (∃ q, w1A.price = .val q ∧ (10:ℚ) ≤ q ∧ q ≤ 30) ∧
    budget_term w1A.price 10 30 = 1 ∧
    w1A.price.isNan = false := by
  refine ⟨by with_unfolding_all decide, ?_⟩
  exact c10_inrange_price w1cat .Balanced 10 30 [] w1A (.val (91/30))
    (by with_unfolding_all decide)

/-! ## Claim C5 -/

/-- C5: for every budget range with `bm ≤ bM`, the budget term is exactly
`+1.0` when the price is present and `bm ≤ price ≤ bM` (inclusive bounds)
and exactly `-0.5` otherwise; a missing (`NaN`) price falls into the
`-0.5` branch, because the chained comparison is `False` on `NaN`.  (The
scorer is a total function, so no record throws or is skipped.) -/
theorem c5_budget_term (bm bM : ℚ) (price : PyFloat) (_h : bm ≤ bM) :
    (∀ q : ℚ, price = .val q →
      budget_term price bm bM = if bm ≤ q ∧ q ≤ bM then 1 else -(1/2)) ∧
    (price = .nan → budget_term price bm bM = -(1/2)) := by
  constructor
  · rintro q rfl
    rcases le_or_lt bm q with h1 | h1
    · rcases le_or_lt q bM with h2 | h2
      · simp [budget_term, PyFloat.le, h1, h2]
      · simp [budget_term, PyFloat.le, h1, h2.not_le]
    · simp [budget_term, PyFloat.le, h1.not_le]
  · rintro rfl
    simp [budget_term, PyFloat.le]

theorem c5_budget_term_witness :
    (10 : ℚ) ≤ 30 ∧
    budget_term (.val 15) 10 30 = 1 ∧
    budget_term (.val 40) 10 30 = -(1/2) ∧
    budget_term .nan 10 30 = -(1/2) := by
  refine ⟨by norm_num, ?_, ?_, ?_⟩
  · have h := (c5_budget_term 10 30 (.val 15) (by norm_num)).1 15 rfl
    rwa [if_pos (by norm_num)] at h
  · have h := (c5_budget_term 10 30 (.val 40) (by norm_num)).1 40 rfl
    rwa [if_neg (by norm_num)] at h
  · exact (c5_budget_term 10 30 .nan (by norm_num)).2 rfl

/-! ## Claim C6 -/

/-- C6: the priority multiplier is applied exactly once, after all four
additive terms: the final score is `raw_score * 1.2` for `Performance`,
`* 1.1` for `Camera`, `* 1.15` for `Battery`, and `raw_score` unchanged
for `Display` and `Balanced`. -/
theorem c6_priority_multiplier (catalog : List PhoneRecord) (row : PhoneRecord) (bm bM : ℚ) :
    score_phone catalog row .Performance bm bM = (raw_score catalog row bm bM).mul (.val (6/5)) ∧
    score_phone catalog row .Camera bm bM = (raw_score catalog row bm bM).mul (.val (11/10)) ∧
    score_phone catalog row .Battery bm bM = (raw_score catalog row bm bM).mul (.val (23/20)) ∧
    score_phone catalog row .Display bm bM = raw_score catalog row bm bM ∧
    score_phone catalog row .Balanced bm bM = raw_score catalog row bm bM :=
  ⟨rfl, rfl, rfl, rfl, rfl⟩

/-! ## Claim C2 (corrected) -/

/-- A fold that skips `NaN` entries leaves its accumulator unchanged on an
all-`NaN` list, so `Series.max` of an all-missing column is `NaN`. -/
theorem seriesMax_of_all_nan {xs : List PyFloat} (h : ∀ x ∈ xs, x.isNan = true) :
    seriesMax xs = .nan := by
  have key : ∀ (ys : List PyFloat), (∀ x ∈ ys, x.isNan = true) → ∀ acc : PyFloat,
      ys.foldl (fun acc x => if x.isNan then acc
        else if acc.isNan then x else if acc.le x then x else acc) acc = acc := by
    intro ys
    induction ys with
    | nil => intro _ acc; rfl
    | cons a as ih =>
      intro hy acc
      have ha := hy a (List.mem_cons_self a as)
      simp only [List.foldl_cons, ha, if_true]
      exact ih (fun x hx => hy x (List.mem_cons_of_mem a hx)) acc
  exact key xs h .nan

/-- The catalog used to refute C2 as stated: one record with a present ram
equal to `0`, so that `maxRamInCatalog` is `0` while the row's own ram is
not missing. -/
def c2cat : List PhoneRecord := [⟨none, "p zero", .val 15, .val 0, .nan, none⟩]

/-- C2 counterexample: when `maxRamInCatalog` is exactly `0` and a record
has a present ram (necessarily `0`), the performance term is NOT skipped:
the guard only checks `pd.isna(row["ram"])`, so the code evaluates
`0.0 / 0.0`, which is `NaN` under numpy (no exception), not a `0`
contribution — the whole score becomes `NaN` instead of the `1.0` that
skipping the term would give. -/
theorem c2_zero_max_counterexample :
    seriesMax (c2cat.map PhoneRecord.ram) = .val 0 ∧
    ram_term (.val 0) (seriesMax (c2cat.map PhoneRecord.ram)) = .nan ∧
    PyFloat.nan ≠ PyFloat.val 0 ∧
    score_phone c2cat ⟨none, "p zero", .val 15, .val 0, .nan, none⟩ .Balanced 10 20 = .nan ∧
    PyFloat.nan ≠ PyFloat.val 1 := by
  with_unfolding_all decide

/-- C2 amended: the division-by-zero concern is only ever avoided through
the per-row missingness guard: when the maxima are undefined because every
record's ram (resp. battery) is missing — which includes the degenerate
catalog cases the spec names — every scored catalog record's own ram
(resp. battery) is also missing, so the term contributes `0` and no
division is evaluated; no exception is raised in any case.  But when a
maximum is exactly zero with a present field value, the term is not
skipped and evaluates `0/0 = NaN` (see the counterexample). -/
theorem c2_degenerate_maxima_amended (catalog : List PhoneRecord) (row : PhoneRecord)
    (hrow : row ∈ catalog)
    (hram : ∀ r ∈ catalog, r.ram.isNan = true)
    (hbat : ∀ r ∈ catalog, r.battery.isNan = true) :
    seriesMax (catalog.map PhoneRecord.ram) = .nan ∧
    seriesMax (catalog.map PhoneRecord.battery) = .nan ∧
    ram_term row.ram (seriesMax (catalog.map PhoneRecord.ram)) = .val 0 ∧
    battery_term row.battery (seriesMax (catalog.map PhoneRecord.battery)) = .val 0 := by
  refine ⟨?_, ?_, ?_, ?_⟩
  · exact seriesMax_of_all_nan fun x hx => by
      obtain ⟨r, hr, rfl⟩ := List.mem_map.mp hx
      exact hram r hr
  · exact seriesMax_of_all_nan fun x hx => by
      obtain ⟨r, hr, rfl⟩ := List.mem_map.mp hx
      exact hbat r hr
  · simp [ram_term, hram row hrow]
  · simp [battery_term, hbat row hrow]

/-- The all-missing catalog used to instantiate the amended C2. -/
def c2wcat : List PhoneRecord := [⟨none, "q zero", .val 12, .nan, .nan, none⟩]

theorem c2_degenerate_maxima_amended_witness :
    (c2wcat.all fun r => r.ram.isNan) = true ∧
    (c2wcat.all fun r => r.battery.isNan) = true ∧
    seriesMax (c2wcat.map PhoneRecord.ram) = .nan ∧
    ram_term PyFloat.nan (seriesMax (c2wcat.map PhoneRecord.ram)) = .val 0 ∧
    battery_term PyFloat.nan (seriesMax (c2wcat.map PhoneRecord.battery)) = .val 0 :=
  ⟨by with_unfolding_all decide, by with_unfolding_all decide,
   (c2_degenerate_maxima_amended c2wcat ⟨none, "q zero", .val 12, .nan, .nan, none⟩
      (by with_unfolding_all decide) (by with_unfolding_all decide)
      (by with_unfolding_all decide)).1,
   (c2_degenerate_maxima_amended c2wcat ⟨none, "q zero", .val 12, .nan, .nan, none⟩
      (by with_unfolding_all decide) (by with_unfolding_all decide)
      (by with_unfolding_all decide)).2.2.1,
   (c2_degenerate_maxima_amended c2wcat ⟨none, "q zero", .val 12, .nan, .nan, none⟩
      (by with_unfolding_all decide) (by with_unfolding_all decide)
      (by with_unfolding_all decide)).2.2.2⟩

/-! ## Claim C3 (corrected) -/

/-- When every element parses, the all-or-nothing comprehension succeeds
and collects exactly the parses. -/
theorem parseAll_eq_some_of_all {α β : Type} (f : α → Option β) :
    ∀ xs : List α, (∀ x ∈ xs, (f x).isSome = true) →
      parseAll f xs = some (xs.filterMap f) := by
  intro xs
  induction xs with
  | nil => intro _; rfl
  | cons a as ih =>
    intro h
    obtain ⟨v, hv⟩ := Option.isSome_iff_exists.mp (h a (List.mem_cons_self a as))
    have hrec := ih fun x hx => h x (List.mem_cons_of_mem a hx)
    simp [parseAll, hv, hrec, List.filterMap_cons]

/-- One failing element aborts the whole all-or-nothing comprehension. -/
theorem parseAll_eq_none_of_failure {α β : Type} (f : α → Option β) :
    ∀ xs : List α, (∃ x ∈ xs, f x = none) → parseAll f xs = none := by
  intro xs
  induction xs with
  | nil => rintro ⟨x, hx, _⟩; cases hx
  | cons a as ih =>
    rintro ⟨x, hx, hfx⟩
    rcases List.mem_cons.mp hx with rfl | hx2
    · simp [parseAll, hfx]
    · simp only [parseAll]
      cases hfa : f a with
      | none => rfl
      | some v => rw [ih ⟨x, hx2, hfx⟩]

/-- Modelled from the spec words (§4.1 step 4): the camera term with
unparseable segments ignored — average only the successfully parsed
segment values.  This is what C3 asserts the code computes; it is compared
against the code's `camera_term` below. -/
def camera_term_spec (s : String) : ℚ :=
  let parsed := (splitOnChar '+' s.data).filterMap camSegParse
  if parsed.isEmpty then 0 else (parsed.sum / (parsed.length : ℚ)) / 100

/-- C3 counterexample: on `"50MP+x"` the first segment parses to `50` but
the second does not; the claim (ignore unparseable segments, average the
rest) predicts a contribution of `50/100 = 1/2`, while the code's `try`
block is aborted by the failing segment and contributes `0`. -/
theorem c3_segment_failure_counterexample :
    camera_term (some "50MP+x") = 0 ∧
    camera_term_spec "50MP+x" = 1/2 ∧
    (0 : ℚ) ≠ 1/2 := by
  with_unfolding_all decide

/-- C3 amended: the camera term equals the average of the parsed segment
values divided by 100 only when EVERY `+`-separated segment parses; if any
segment is unparseable the exception aborts the whole computation and the
term contributes `0` (the failure is swallowed by `except: pass`, never
propagated); an absent or non-string camera field likewise contributes
`0`. -/
theorem c3_camera_term_amended (s : String) :
    ((∀ o ∈ segParses s, o.isSome = true) →
      camera_term (some s) =
        (((segParses s).filterMap id).sum / (((segParses s).filterMap id).length : ℚ)) / 100) ∧
    ((∃ o ∈ segParses s, o = none) → camera_term (some s) = 0) ∧
    camera_term none = 0 := by
  refine ⟨?_, ?_, rfl⟩
  · intro h
    have hall : ∀ x ∈ splitOnChar '+' s.data, (camSegParse x).isSome = true := by
      intro x hx
      exact h (camSegParse x) (List.mem_map_of_mem camSegParse hx)
    have e := parseAll_eq_some_of_all camSegParse (splitOnChar '+' s.data) hall
    have efm : (segParses s).filterMap id
        = (splitOnChar '+' s.data).filterMap camSegParse := by
      simp [segParses, List.filterMap_map, Function.id_comp]
    simp [camera_term, e, efm]
  · rintro ⟨o, ho, rfl⟩
    obtain ⟨x, hx, hfx⟩ := List.mem_map.mp ho
    have e := parseAll_eq_none_of_failure camSegParse (splitOnChar '+' s.data) ⟨x, hx, hfx⟩
    simp [camera_term, e]

theorem c3_camera_term_amended_witness :
    ((segParses "50MP+8MP+2MP").all fun o => o.isSome) = true ∧
    camera_term (some "50MP+8MP+2MP") =
      (((segParses "50MP+8MP+2MP").filterMap id).sum /
        (((segParses "50MP+8MP+2MP").filterMap id).length : ℚ)) / 100 ∧
    camera_term (some "50MP+8MP+2MP") = 1/5 :=
  ⟨by with_unfolding_all decide,
   (c3_camera_term_amended "50MP+8MP+2MP").1 (by with_unfolding_all decide),
   by with_unfolding_all decide⟩

/-! ## Claim C9: monotonicity lemmas for `PyFloat` -/

/-- Adding the same non-`NaN` value to both sides of a comparison of finite
values preserves it. -/
theorem add_val_mono_left {x y : ℚ} (c : PyFloat) (hxy : x ≤ y) (hc : c.isNan = false) :
    PyFloat.le ((PyFloat.val x).add c) ((PyFloat.val y).add c) = true := by
  cases c with
  | nan => cases hc
  | inf b => cases b <;> simp [PyFloat.add, PyFloat.le]
  | val z =>
    simp only [PyFloat.add, PyFloat.le, decide_eq_true_eq]
    exact add_le_add_right hxy z

/-- Adding the same finite value to both sides of a true comparison
preserves it. -/
theorem add_val_le_add_val {a b : PyFloat} (z : ℚ) (h : PyFloat.le a b = true) :
    PyFloat.le (a.add (.val z)) (b.add (.val z)) = true := by
  cases a with
  | nan => simp [PyFloat.le] at h
  | inf b1 =>
    cases b with
    | nan => simp [PyFloat.le] at h
    | inf b2 => simpa [PyFloat.add, PyFloat.le] using h
    | val y =>
      have hb1 : b1 = false := by
        cases b1
        · rfl
        · simp [PyFloat.le] at h
      simp [PyFloat.add, PyFloat.le, hb1]
  | val x =>
    cases b with
    | nan => simp [PyFloat.le] at h
    | inf b2 =>
      have hb2 : b2 = true := by
        cases b2
        · simp [PyFloat.le] at h
        · rfl
      simp [PyFloat.add, PyFloat.le, hb2]
    | val y =>
      simp only [PyFloat.add, PyFloat.le, decide_eq_true_eq] at h ⊢
      exact add_le_add_right h z

/-- A non-`NaN` value plus an increasing finite value is increasing. -/
theorem add_val_mono_right (a : PyFloat) {z1 z2 : ℚ} (ha : a.isNan = false) (hz : z1 ≤ z2) :
    PyFloat.le (a.add (.val z1)) (a.add (.val z2)) = true := by
  cases a with
  | nan => cases ha
  | inf b => cases b <;> simp [PyFloat.add, PyFloat.le]
  | val x =>
    simp only [PyFloat.add, PyFloat.le, decide_eq_true_eq]
    exact add_le_add_left hz x

/-- Multiplying both sides of a true comparison by the same positive finite
constant preserves it. -/
theorem mul_val_pos_mono {a b : PyFloat} {k : ℚ} (hk : 0 < k) (h : PyFloat.le a b = true) :
    PyFloat.le (a.mul (.val k)) (b.mul (.val k)) = true := by
  have hk0 : k ≠ 0 := ne_of_gt hk
  cases a with
  | nan => simp [PyFloat.le] at h
  | inf b1 =>
    cases b with
    | nan => simp [PyFloat.le] at h
    | inf b2 => simpa [PyFloat.mul, PyFloat.le, hk0, hk] using h
    | val y =>
      have hb1 : b1 = false := by
        cases b1
        · rfl
        · simp [PyFloat.le] at h
      simp [PyFloat.mul, PyFloat.le, hk0, hk, hb1]
  | val x =>
    cases b with
    | nan => simp [PyFloat.le] at h
    | inf b2 =>
      have hb2 : b2 = true := by
        cases b2
        · simp [PyFloat.le] at h
        · rfl
      simp [PyFloat.mul, PyFloat.le, hk0, hk, hb2]
    | val y =>
      simp only [PyFloat.mul, PyFloat.le, decide_eq_true_eq] at h ⊢
      exact mul_le_mul_of_nonneg_right h hk.le

/-- The priority adjustment multiplies by a positive constant (or leaves
the score unchanged), so it preserves comparisons. -/
theorem priority_mult_mono (p : Priority) {a b : PyFloat} (h : PyFloat.le a b = true) :
    PyFloat.le (priority_mult p a) (priority_mult p b) = true := by
  cases p with
  | Performance => exact mul_val_pos_mono (by norm_num) h
  | Camera => exact mul_val_pos_mono (by norm_num) h
  | Battery => exact mul_val_pos_mono (by norm_num) h
  | Display => exact h
  | Balanced => exact h

/-- With a finite non-zero maximum, the performance term of a present ram
is the finite value `ram / max * 2`. -/
theorem ram_term_val {r m : ℚ} (hm : m ≠ 0) :
    ram_term (.val r) (.val m) = .val (r / m * 2) := by
  simp [ram_term, PyFloat.isNan, PyFloat.div, PyFloat.mul, hm]

/-- With a finite non-zero maximum, the battery term of a present battery
is the finite value `battery / max`. -/
theorem battery_term_val {b m : ℚ} (hm : m ≠ 0) :
    battery_term (.val b) (.val m) = .val (b / m) := by
  simp [battery_term, PyFloat.isNan, PyFloat.div, hm]

/-- With a finite non-zero maximum, the battery term is never `NaN`,
whatever the battery entry is. -/
theorem battery_term_not_nan (c : PyFloat) {m : ℚ} (hm : m ≠ 0) :
    (battery_term c (.val m)).isNan = false := by
  cases c with
  | nan => simp [battery_term, PyFloat.isNan]
  | inf b => simp [battery_term, PyFloat.isNan, PyFloat.div, hm]
  | val x => simp [battery_term, PyFloat.isNan, PyFloat.div, hm]

/-- With a finite non-zero maximum, the ram term is never `NaN`, whatever
the ram entry is. -/
theorem ram_term_not_nan (c : PyFloat) {m : ℚ} (hm : m ≠ 0) :
    (ram_term c (.val m)).isNan = false := by
  cases c with
  | nan => simp [ram_term, PyFloat.isNan]
  | inf b =>
    simp [ram_term, PyFloat.isNan, PyFloat.div, PyFloat.mul, hm,
      show (2:ℚ) ≠ 0 from by norm_num]
  | val x =>
    simp [ram_term, PyFloat.isNan, PyFloat.div, PyFloat.mul, hm,
      show (2:ℚ) ≠ 0 from by norm_num]

/-- A finite value plus a non-`NaN` value is not `NaN`. -/
theorem add_val_not_nan {x : ℚ} {c : PyFloat} (hc : c.isNan = false) :
    ((PyFloat.val x).add c).isNan = false := by
  cases c with
  | nan => cases hc
  | inf b => simp [PyFloat.add, PyFloat.isNan]
  | val z => simp [PyFloat.add, PyFloat.isNan]

/-- The catalog used to refute C9 as stated: the ram maximum is `0` while
the single record's ram is present, so its score is `NaN`. -/
def c9cat : List PhoneRecord := [⟨none, "r zero", .val 15, .val 0, .nan, none⟩]

/-- C9 counterexample: the claim as stated quantifies over all pairs of
records identical except that the second has ram at least as large as the
first, with the catalog maxima held fixed and NO restriction on those
maxima.  Take the catalog whose ram maximum is `0` and the (identical)
pair with present ram `0 ≤ 0`: the performance term evaluates
`0/0 = NaN`, both scores are `NaN`, and under IEEE comparison even
`score ≥ score` is false — so the claimed inequality fails. -/
theorem c9_zero_max_counterexample :
    (0 : ℚ) ≤ 0 ∧
    score_phone c9cat ⟨none, "r zero", .val 15, .val 0, .nan, none⟩ .Balanced 10 20 = .nan ∧
    PyFloat.le (score_phone c9cat ⟨none, "r zero", .val 15, .val 0, .nan, none⟩ .Balanced 10 20)
               (score_phone c9cat ⟨none, "r zero", .val 15, .val 0, .nan, none⟩ .Balanced 10 20)
      = false := by
  with_unfolding_all decide

/-- C9 amended: with the catalog (hence the normalisation maxima) held
fixed and the maxima additionally finite and strictly positive — which
holds exactly when the catalog carries a positive present ram and battery,
and which the counterexample shows cannot be dropped: a zero or undefined
maximum makes the score of a record with the field present `NaN`, and
`NaN` comparisons are false — the score is monotonically non-decreasing in
a present `ram` and in a present `battery`, all other fields, the priority
and the budget range held fixed. -/
theorem c9_monotone_ram_battery (catalog : List PhoneRecord)
    (br : Option String) (mo : String) (pr : PyFloat) (bat : PyFloat) (cam : Option String)
    (ramv : PyFloat) (p : Priority) (bm bM mr mb r1 r2 b1 b2 : ℚ)
    (hmr : seriesMax (catalog.map PhoneRecord.ram) = .val mr) (hmr0 : 0 < mr)
    (hmb : seriesMax (catalog.map PhoneRecord.battery) = .val mb) (hmb0 : 0 < mb)
    (hr : r1 ≤ r2) (hb : b1 ≤ b2) :
    PyFloat.le (score_phone catalog ⟨br, mo, pr, .val r1, bat, cam⟩ p bm bM)
               (score_phone catalog ⟨br, mo, pr, .val r2, bat, cam⟩ p bm bM) = true ∧
    PyFloat.le (score_phone catalog ⟨br, mo, pr, ramv, .val b1, cam⟩ p bm bM)
               (score_phone catalog ⟨br, mo, pr, ramv, .val b2, cam⟩ p bm bM) = true := by
  constructor
  · have hX : (0 : ℚ) + budget_term pr bm bM + r1 / mr * 2
        ≤ 0 + budget_term pr bm bM + r2 / mr * 2 := by
      have h1 : r1 / mr ≤ r2 / mr := (div_le_div_iff_of_pos_right hmr0).mpr hr
      have h2 : r1 / mr * 2 ≤ r2 / mr * 2 :=
        mul_le_mul_of_nonneg_right h1 (by norm_num)
      exact add_le_add_left h2 _
    simp only [score_phone, raw_score, hmr, hmb, ram_term_val (ne_of_gt hmr0)]
    exact priority_mult_mono p (add_val_le_add_val _
      (add_val_mono_left _ hX (battery_term_not_nan bat (ne_of_gt hmb0))))
  · have hz : b1 / mb ≤ b2 / mb := (div_le_div_iff_of_pos_right hmb0).mpr hb
    simp only [score_phone, raw_score, hmr, hmb, battery_term_val (ne_of_gt hmb0)]
    exact priority_mult_mono p (add_val_le_add_val _
      (add_val_mono_right _ (add_val_not_nan (ram_term_not_nan ramv (ne_of_gt hmr0))) hz))

/-- The catalog fixing the maxima (`maxRam = 16`, `maxBattery = 6`) for the
C9 instance. -/
def w9cat : List PhoneRecord := [⟨some "A", "A big", .val 15, .val 16, .val 6, none⟩]

theorem c9_monotone_ram_battery_witness :
    seriesMax (w9cat.map PhoneRecord.ram) = .val 16 ∧ (0:ℚ) < 16 ∧
    seriesMax (w9cat.map PhoneRecord.battery) = .val 6 ∧ (0:ℚ) < 6 ∧
    (4:ℚ) ≤ 8 ∧ (2:ℚ) ≤ 3 ∧
    PyFloat.le (score_phone w9cat ⟨none, "x", .val 15, .val 4, .val 5, none⟩ .Balanced 10 30)
               (score_phone w9cat ⟨none, "x", .val 15, .val 8, .val 5, none⟩ .Balanced 10 30)
      = true ∧
    PyFloat.le (score_phone w9cat ⟨none, "x", .val 15, .val 7, .val 2, none⟩ .Balanced 10 30)
               (score_phone w9cat ⟨none, "x", .val 15, .val 7, .val 3, none⟩ .Balanced 10 30)
      = true :=
  ⟨by with_unfolding_all decide, by norm_num, by with_unfolding_all decide, by norm_num,
   by norm_num, by norm_num,
   (c9_monotone_ram_battery w9cat none "x" (.val 15) (.val 5) none (.val 7) .Balanced
      10 30 16 6 4 8 2 3 (by with_unfolding_all decide) (by norm_num)
      (by with_unfolding_all decide) (by norm_num) (by norm_num) (by norm_num)).1,
   (c9_monotone_ram_battery w9cat none "x" (.val 15) (.val 5) none (.val 7) .Balanced
      10 30 16 6 4 8 2 3 (by with_unfolding_all decide) (by norm_num)
      (by with_unfolding_all decide) (by norm_num) (by norm_num) (by norm_num)).2⟩

end Recommender
